/-
Verification of the authentication/authorization core of the istio-csr
server (`pkg/server/auth.go`): the `authRequest` pipeline and the
`identitiesMatch` identity comparison.

The embedding is shallow: Go slices become Lean lists, the gRPC context,
Kubernetes caller info and cryptographic primitives are opaque data
threaded through, and each fallible external call is a function returning
`Except`.
-/
import Mathlib

namespace IstioCSR

/-- A parsed URI (`*url.URL` in Go). The pipeline only ever consumes a URI
through its canonical string form (Go's `URL.String()`), so the embedding
keeps exactly that string. -/
structure URL where
  str : String
deriving DecidableEq, Repr

/-- Opaque Kubernetes platform metadata attached to an authenticated caller
(`security.KubernetesInfo`); the pipeline only forwards it to the node
authorizer. -/
structure KubernetesInfo where
  raw : String
deriving DecidableEq, Repr

/-- The authenticated party (`security.Caller`): its identity strings and
its platform metadata. -/
structure Caller where
  identities : List String
  kubernetesInfo : KubernetesInfo
deriving DecidableEq, Repr

/-- Opaque session context handed to authenticators (Go `context.Context`
wrapped in `security.AuthContext`); a tag suffices since the pipeline only
threads it through. -/
structure AuthContext where
  tag : Nat
deriving DecidableEq, Repr

/-- An authenticator plugin: `Authenticate(AuthContext) (*Caller, error)`. -/
def Authenticator : Type := AuthContext → Except String Caller

/-- The node authorizer collaborator:
`authenticateImpersonation(KubernetesInfo, string) error`. -/
def NodeAuthorizer : Type := KubernetesInfo → String → Except String Unit

/-- The decoded CSR (`*x509.CertificateRequest`), restricted to the fields
`authRequest` reads: URI, IP and email subject-alternative-names. IP and
email entries are consumed only through their count, so they are kept as
opaque strings. -/
structure ParsedCSR where
  uris : List URL
  ipAddresses : List String
  emailAddresses : List String
deriving DecidableEq, Repr

/-- The inbound request (`securityapi.IstioCertificateRequest`): raw CSR
bytes plus the string-valued metadata fields. -/
structure IstioCertificateRequest where
  csr : String
  metadata : List (String × String)
deriving DecidableEq, Repr

/-- The metadata key for an impersonated identity (the external constant
`security.ImpersonatedIdentity` from istio). -/
def ImpersonatedIdentity : String := "ImpersonatedIdentity"

/-- Protobuf struct lookup, `crMetadata[key].GetStringValue()`: a missing
field yields the empty string. -/
def getStringValue (m : List (String × String)) (k : String) : String :=
  match m.lookup k with
  | some v => v
  | none => ""

/-- The server state consumed by `authRequest`: the ordered authenticator
chain and the optional node authorizer (absent unless
`CA_TRUSTED_NODE_ACCOUNTS` is configured). -/
structure Server where
  authenticators : List Authenticator
  nodeAuthorizer : Option NodeAuthorizer

/-- External functions called by `authRequest` whose bodies live outside
this repository's core source: `pkiutil.ParsePemEncodedCSR` and
`csr.CheckSignature()` are cryptographic library calls.

Modelled from the spec: `validateCSRExtentions` stands for the
extension-validator collaborator (`extensions.ValidateCSRExtentions`,
whose source is not part of this core); the spec specifies it only at its
interface, `validate(ParsedCSR) -> success | error`. -/
structure Externals where
  parsePemEncodedCSR : String → Except String ParsedCSR
  checkSignature : ParsedCSR → Except String Unit
  validateCSRExtentions : ParsedCSR → Except String Unit

/-! ### identitiesMatch -/

/-- Go's lexicographic string comparison, on the character sequences of the
two strings: `x <= y` iff `x` is a prefix of `y` or the first differing
character is smaller in `x`. -/
def charsLe : List Char → List Char → Bool
  | [], _ => true
  | _ :: _, [] => false
  | c :: cs, d :: ds =>
    if c < d then true
    else if d < c then false
    else charsLe cs ds

/-- Comparison `x <= y` on strings, as Go's `sort.Strings` orders them. -/
def strLe (x y : String) : Bool := charsLe x.data y.data

/-- The ordering used on the expected identity strings. -/
def strLeR (x y : String) : Prop := strLe x y = true

/-- The ordering used on the actual URIs: by the canonical string form
`URL.String()`, as in the Go comparison `bb[i].String() < bb[j].String()`. -/
def urlLeR (u v : URL) : Prop := strLe u.str v.str = true

instance : DecidableRel strLeR :=
  fun x y => inferInstanceAs (Decidable (strLe x y = true))

instance : DecidableRel urlLeR :=
  fun u v => inferInstanceAs (Decidable (strLe u.str v.str = true))

/-- The sorted copy of the expected identity strings (`sort.Strings(aa)`
after `copy(aa, a)`); lexicographic on the exact string value. The sorting
algorithm itself is immaterial: the order has no distinct ties, so every
sort produces the same list. -/
def sortedStrings (a : List String) : List String :=
  List.insertionSort strLeR a

/-- The sorted copy of the actual URIs (`sort.SliceStable(bb, ...)` after
`copy(bb, b)`), ordered by the canonical string form `URL.String()`. -/
def sortedURLs (b : List URL) : List URL :=
  List.insertionSort urlLeR b

/-- The function `identitiesMatch(a []string, b []*url.URL) bool`: false
on a length mismatch, otherwise sort fresh copies of both sides and
compare element-wise, each URI through its canonical string form. -/
def identitiesMatch (a : List String) (b : List URL) : Bool :=
  if a.length ≠ b.length then
    false
  else
    let aa := sortedStrings a
    let bb := sortedURLs b
    (aa.zip bb).all (fun p => p.2.str == p.1)

/-! ### authRequest -/

/-- The authenticator loop of `authRequest` (lines 38-54): try each
authenticator in order, stop at the first success, and otherwise
accumulate every error in order for the final joined diagnostic. -/
def authChainLoop : List Authenticator → AuthContext → List String →
    Except (List String) Caller
  | [], _, errs => .error errs
  | a :: rest, ctx, errs =>
    match a ctx with
    | .ok caller => .ok caller
    | .error e => authChainLoop rest ctx (errs ++ [e])

/-- The authenticator chain, started with no collected errors. -/
def authChain (auths : List Authenticator) (ctx : AuthContext) :
    Except (List String) Caller :=
  authChainLoop auths ctx []

/-- Lines 84-121 of `authRequest`: decode the CSR, check its
self-signature, reject IP/email SANs, run the extension validator, and
match the URIs against the expected identities. `identities` is the
resolved identity string fixed before this point; it is returned with
every outcome, failures included. -/
def validateCSR (ext : Externals) (csrPEM : String) (identities : String)
    (impersonatedIdentity : String) (callerIdentities : List String) :
    String × Bool :=
  match ext.parsePemEncodedCSR csrPEM with
  | .error _ => (identities, false)
  | .ok csr =>
    match ext.checkSignature csr with
    | .error _ => (identities, false)
    | .ok _ =>
      if 0 < csr.ipAddresses.length ∨ 0 < csr.emailAddresses.length then
        (identities, false)
      else
        match ext.validateCSRExtentions csr with
        | .error _ => (identities, false)
        | .ok _ =>
          if impersonatedIdentity = "" then
            if identitiesMatch callerIdentities csr.uris then
              (identities, true)
            else
              (identities, false)
          else
            if identitiesMatch [impersonatedIdentity] csr.uris then
              (identities, true)
            else
              (identities, false)

/-- The pipeline `(s *Server) authRequest(ctx, icr) (string, bool)`:
authenticate the
request through the chain, reject callers with no identities, resolve the
impersonated identity through the node authorizer when requested (the Go
`identities` variable is still empty when impersonation is denied, so
those branches return `""`), then validate the CSR against the resolved
identities. -/
def authRequest (s : Server) (ext : Externals) (ctx : AuthContext)
    (icr : IstioCertificateRequest) : String × Bool :=
  match authChain s.authenticators ctx with
  | .error _ => ("", false)
  | .ok caller =>
    if caller.identities.length = 0 then
      ("", false)
    else
      let impersonatedIdentity := getStringValue icr.metadata ImpersonatedIdentity
      if impersonatedIdentity ≠ "" then
        match s.nodeAuthorizer with
        | none => ("", false)
        | some nodeAuthorizer =>
          match nodeAuthorizer caller.kubernetesInfo impersonatedIdentity with
          | .error _ => ("", false)
          | .ok _ =>
            validateCSR ext icr.csr impersonatedIdentity
              impersonatedIdentity caller.identities
      else
        validateCSR ext icr.csr (String.intercalate "," caller.identities)
          impersonatedIdentity caller.identities

/-! ### Slice-store model of identitiesMatch

Go slices are mutable; to state that `identitiesMatch` leaves its two
argument slices untouched, the function is replayed over an explicit slice
store. The caller's slices live at indices `ia`/`ib`; `make`+`copy`
allocates fresh slices (appended to the store) and the sorts are applied
to those fresh slices only, exactly as in the source. -/

/-- A heap of string slices and URL slices, addressed by index. -/
structure SliceStore where
  strSlices : List (List String)
  urlSlices : List (List URL)

/-- The function `identitiesMatch` replayed over the slice store: reads
the inputs at
`ia`/`ib`, allocates the copies `aa`/`bb` as fresh slices, sorts those in
place, and compares; the result is the boolean plus the final store. -/
def identitiesMatchStore (σ : SliceStore) (ia ib : Nat) : Bool × SliceStore :=
  let a := σ.strSlices.getD ia []
  let b := σ.urlSlices.getD ib []
  if a.length ≠ b.length then
    (false, σ)
  else
    let aa := sortedStrings a
    let bb := sortedURLs b
    ((aa.zip bb).all (fun p => p.2.str == p.1),
      { strSlices := σ.strSlices ++ [aa], urlSlices := σ.urlSlices ++ [bb] })

/-! ### Concrete sample values -/

/-- A sample session context. -/
def sampleCtx : AuthContext := ⟨0⟩

/-- The caller identity of the spec's end-to-end example. -/
def fooId : String := "spiffe://cluster/ns/default/sa/foo"

/-- Sample platform metadata. -/
def sampleKube : KubernetesInfo := ⟨"node-a"⟩

/-- A caller holding the single example identity. -/
def sampleCallerFoo : Caller := ⟨[fooId], sampleKube⟩

/-- A caller with no identities. -/
def sampleCallerEmpty : Caller := ⟨[], sampleKube⟩

/-- An authenticator that succeeds with the example caller. -/
def authOkFoo : Authenticator := fun _ => .ok sampleCallerFoo

/-- An authenticator that succeeds with an identity-less caller. -/
def authOkEmpty : Authenticator := fun _ => .ok sampleCallerEmpty

/-- An authenticator that fails with a token error. -/
def authFail1 : Authenticator := fun _ => .error "bad token"

/-- An authenticator that fails with a certificate error. -/
def authFail2 : Authenticator := fun _ => .error "expired cert"

/-- The decoded CSR of the end-to-end example: the single matching URI SAN
and no IP or email SANs. -/
def sampleCSRFoo : ParsedCSR := ⟨[⟨fooId⟩], [], []⟩

/-- A decoded CSR carrying an IP SAN besides the matching URI SAN. -/
def sampleCSRWithIP : ParsedCSR := ⟨[⟨fooId⟩], ["1.2.3.4"], []⟩

/-- Externals where decoding yields the example CSR and every check
passes. -/
def extOkFoo : Externals := ⟨fun _ => .ok sampleCSRFoo, fun _ => .ok (), fun _ => .ok ()⟩

/-- Externals where decoding yields the CSR with an IP SAN. -/
def extWithIP : Externals := ⟨fun _ => .ok sampleCSRWithIP, fun _ => .ok (), fun _ => .ok ()⟩

/-- Externals where CSR decoding fails. -/
def extParseFail : Externals :=
  ⟨fun _ => .error "bad pem", fun _ => .ok (), fun _ => .ok ()⟩

/-- A request with no metadata (hence no impersonation). -/
def icrPlain : IstioCertificateRequest := ⟨"CSRPEM", []⟩

/-- A request asking to impersonate another identity. -/
def icrImp : IstioCertificateRequest :=
  ⟨"CSRPEM", [(ImpersonatedIdentity, "spiffe://cluster/ns/default/sa/other")]⟩

/-- A node authorizer that denies every impersonation. -/
def naDeny : NodeAuthorizer := fun _ _ => .error "impersonation denied"

/-! ### The string order is a linear order -/

theorem charsLe_total : ∀ xs ys : List Char, charsLe xs ys = true ∨ charsLe ys xs = true
  | [], _ => Or.inl rfl
  | _ :: _, [] => Or.inr rfl
  | c :: cs, d :: ds => by
    rcases lt_trichotomy c d with h | h | h
    · exact Or.inl (by simp [charsLe, h])
    · subst h
      simpa [charsLe, lt_irrefl] using charsLe_total cs ds
    · exact Or.inr (by simp [charsLe, h])

theorem charsLe_trans : ∀ xs ys zs : List Char,
    charsLe xs ys = true → charsLe ys zs = true → charsLe xs zs = true
  | [], _, _ => by intro _ _; rfl
  | _ :: _, [], _ => by intro h; simp [charsLe] at h
  | _ :: _, _ :: _, [] => by intro _ h; simp [charsLe] at h
  | c :: cs, d :: ds, e :: es => by
    intro h1 h2
    rcases lt_trichotomy c d with hcd | hcd | hcd
    · rcases lt_trichotomy d e with hde | hde | hde
      · simp [charsLe, lt_trans hcd hde]
      · subst hde; simp [charsLe, hcd]
      · simp [charsLe, hde, lt_asymm hde] at h2
    · subst hcd
      simp [charsLe, lt_irrefl] at h1
      rcases lt_trichotomy c e with hce | hce | hce
      · simp [charsLe, hce]
      · subst hce
        simpa [charsLe, lt_irrefl] using charsLe_trans cs ds es h1 (by simpa [charsLe, lt_irrefl] using h2)
      · simp [charsLe, hce, lt_asymm hce] at h2
    · simp [charsLe, hcd, lt_asymm hcd] at h1

theorem charsLe_antisymm : ∀ xs ys : List Char,
    charsLe xs ys = true → charsLe ys xs = true → xs = ys
  | [], [] => by intro _ _; rfl
  | [], _ :: _ => by intro _ h; simp [charsLe] at h
  | _ :: _, [] => by intro h _; simp [charsLe] at h
  | c :: cs, d :: ds => by
    intro h1 h2
    rcases lt_trichotomy c d with hcd | hcd | hcd
    · simp [charsLe, hcd, lt_asymm hcd] at h2
    · subst hcd
      simp [charsLe, lt_irrefl] at h1 h2
      rw [charsLe_antisymm cs ds h1 h2]
    · simp [charsLe, hcd, lt_asymm hcd] at h1

instance : IsTotal String strLeR :=
  ⟨fun x y => charsLe_total x.data y.data⟩

instance : IsTrans String strLeR :=
  ⟨fun x y z => charsLe_trans x.data y.data z.data⟩

instance : IsAntisymm String strLeR :=
  ⟨fun x y h1 h2 => String.ext (charsLe_antisymm x.data y.data h1 h2)⟩

instance : IsTotal URL urlLeR :=
  ⟨fun u v => charsLe_total u.str.data v.str.data⟩

instance : IsTrans URL urlLeR :=
  ⟨fun u v w => charsLe_trans u.str.data v.str.data w.str.data⟩

instance : IsAntisymm URL urlLeR :=
  ⟨fun u v h1 h2 => by
    cases u; cases v
    simpa using String.ext (charsLe_antisymm _ _ h1 h2)⟩

/-! ### Sorting facts -/

theorem sortedStrings_perm (a : List String) : (sortedStrings a).Perm a :=
  List.perm_insertionSort strLeR a

theorem sortedURLs_perm (b : List URL) : (sortedURLs b).Perm b :=
  List.perm_insertionSort urlLeR b

theorem sortedStrings_sorted (a : List String) : List.Sorted strLeR (sortedStrings a) :=
  List.sorted_insertionSort strLeR a

theorem sortedURLs_sorted (b : List URL) : List.Sorted urlLeR (sortedURLs b) :=
  List.sorted_insertionSort urlLeR b

theorem sortedStrings_eq_of_perm {a a' : List String} (h : a.Perm a') :
    sortedStrings a = sortedStrings a' :=
  List.eq_of_perm_of_sorted
    ((sortedStrings_perm a).trans (h.trans (sortedStrings_perm a').symm))
    (sortedStrings_sorted a) (sortedStrings_sorted a')

theorem sortedURLs_eq_of_perm {b b' : List URL} (h : b.Perm b') :
    sortedURLs b = sortedURLs b' :=
  List.eq_of_perm_of_sorted
    ((sortedURLs_perm b).trans (h.trans (sortedURLs_perm b').symm))
    (sortedURLs_sorted b) (sortedURLs_sorted b')

/-- The element-wise comparison loop of `identitiesMatch`, on two lists of
equal length, succeeds exactly when the URI list's canonical string forms
equal the string list. -/
theorem zip_all_eq_map : ∀ (xs : List String) (ys : List URL), xs.length = ys.length →
    ((((xs.zip ys).all fun p => p.2.str == p.1) = true) ↔ xs = ys.map URL.str)
  | [], [] => by simp
  | [], _ :: _ => by intro h; exact absurd h (by simp)
  | _ :: _, [] => by intro h; exact absurd h (by simp)
  | x :: xs, y :: ys => by
    intro h
    simp only [List.zip_cons_cons, List.all_cons, List.map_cons, Bool.and_eq_true,
      beq_iff_eq, List.cons.injEq]
    rw [zip_all_eq_map xs ys (by simpa using h)]
    exact ⟨fun ⟨h1, h2⟩ => ⟨h1.symm, h2⟩, fun ⟨h1, h2⟩ => ⟨h1.symm, h2⟩⟩

/-! ### Claims -/

/-- C1: `identitiesMatch` returns true iff the two lists have equal length
and, after sorting the expected strings lexicographically and the actual
URIs lexicographically by canonical string form, the elements are pairwise
equal under exact string comparison; the result is insensitive to the
order of either input list, and any length difference yields false. -/
theorem identitiesMatch_spec (a : List String) (b : List URL) :
    (identitiesMatch a b = true ↔
      a.length = b.length ∧ sortedStrings a = (sortedURLs b).map URL.str) ∧
    (∀ (a' : List String) (b' : List URL), a.Perm a' → b.Perm b' →
      identitiesMatch a' b' = identitiesMatch a b) ∧
    (a.length ≠ b.length → identitiesMatch a b = false) := by
  refine ⟨?_, ?_, ?_⟩
  · by_cases h : a.length = b.length
    · have hlen : (sortedStrings a).length = (sortedURLs b).length := by
        rw [(sortedStrings_perm a).length_eq, (sortedURLs_perm b).length_eq]
        exact h
      rw [identitiesMatch, if_neg (by simp [h])]
      simpa [h] using zip_all_eq_map (sortedStrings a) (sortedURLs b) hlen
    · simp [identitiesMatch, h]
  · intro a' b' pa pb
    by_cases h : a.length = b.length
    · have h' : a'.length = b'.length := by
        rw [← pa.length_eq, ← pb.length_eq]; exact h
      rw [identitiesMatch, identitiesMatch, if_neg (by simp [h']), if_neg (by simp [h]),
        sortedStrings_eq_of_perm pa.symm, sortedURLs_eq_of_perm pb.symm]
    · have h' : a'.length ≠ b'.length := by
        rw [← pa.length_eq, ← pb.length_eq]; exact h
      simp [identitiesMatch, h, h']
  · intro h
    simp [identitiesMatch, h]

/-- Witness for C1 at concrete inputs: order-insensitivity on the spec's
example, and a length-mismatch rejection. -/
theorem identitiesMatch_spec_witness :
    identitiesMatch ["b", "a"] [⟨"a"⟩, ⟨"b"⟩] = identitiesMatch ["a", "b"] [⟨"b"⟩, ⟨"a"⟩] ∧
    identitiesMatch ["a"] [] = false := by
  constructor
  · exact (identitiesMatch_spec ["a", "b"] [⟨"b"⟩, ⟨"a"⟩]).2.1
      ["b", "a"] [⟨"a"⟩, ⟨"b"⟩] (by decide) (by decide)
  · exact (identitiesMatch_spec ["a"] []).2.2 (by decide)

/-! ### Facts about the CSR validation tail of the pipeline -/

/-- Every branch of the CSR validation tail returns the resolved identity
string it was given, failures included. -/
theorem validateCSR_fst (ext : Externals) (pem : String) (i : String)
    (imp : String) (cids : List String) :
    (validateCSR ext pem i imp cids).1 = i := by
  unfold validateCSR
  repeat' split
  all_goals rfl

/-- The CSR validation tail refuses every CSR that decodes with an IP or
email SAN present. -/
theorem validateCSR_forbidden_san (ext : Externals) (pem : String) (i : String)
    (imp : String) (cids : List String) (csr : ParsedCSR)
    (hparse : ext.parsePemEncodedCSR pem = .ok csr)
    (hsan : csr.ipAddresses ≠ [] ∨ csr.emailAddresses ≠ []) :
    (validateCSR ext pem i imp cids).2 = false := by
  have h : 0 < csr.ipAddresses.length ∨ 0 < csr.emailAddresses.length := by
    rcases hsan with h | h
    · exact Or.inl (List.length_pos.2 h)
    · exact Or.inr (List.length_pos.2 h)
  unfold validateCSR
  simp only [hparse]
  rcases ext.checkSignature csr with e | u
  · rfl
  · simp only [if_pos h]

/-- The CSR validation tail authorizes a non-impersonated request whose
decoded CSR passes every check and whose URIs match the caller
identities. -/
theorem validateCSR_ok (ext : Externals) (pem : String) (i : String)
    (cids : List String) (csr : ParsedCSR)
    (hparse : ext.parsePemEncodedCSR pem = .ok csr)
    (hsig : ext.checkSignature csr = .ok ())
    (hip : csr.ipAddresses = [])
    (hemail : csr.emailAddresses = [])
    (hext : ext.validateCSRExtentions csr = .ok ())
    (hmatch : identitiesMatch cids csr.uris = true) :
    validateCSR ext pem i "" cids = (i, true) := by
  unfold validateCSR
  simp [hparse, hsig, hip, hemail, hext, hmatch]

/-- C2: when some configured authenticator succeeds with the single
identity `spiffe://cluster/ns/default/sa/foo`, no impersonation is
requested, and the CSR decodes, self-verifies, has no IP or email SANs,
passes the extension validator and carries exactly that identity as its
URI SAN, `authRequest` returns that identity with `true`. -/
theorem authRequest_success (s : Server) (ext : Externals) (ctx : AuthContext)
    (icr : IstioCertificateRequest) (caller : Caller) (csr : ParsedCSR)
    (hauth : authChain s.authenticators ctx = .ok caller)
    (hid : caller.identities = ["spiffe://cluster/ns/default/sa/foo"])
    (himp : getStringValue icr.metadata ImpersonatedIdentity = "")
    (hparse : ext.parsePemEncodedCSR icr.csr = .ok csr)
    (hsig : ext.checkSignature csr = .ok ())
    (hip : csr.ipAddresses = [])
    (hemail : csr.emailAddresses = [])
    (hext : ext.validateCSRExtentions csr = .ok ())
    (huris : csr.uris = [⟨"spiffe://cluster/ns/default/sa/foo"⟩]) :
    authRequest s ext ctx icr = ("spiffe://cluster/ns/default/sa/foo", true) := by
  unfold authRequest
  rw [hauth]
  simp only [hid, himp]
  rw [if_neg (by decide)]
  simp only [ne_eq, not_true_eq_false, if_false, ite_false]
  rw [validateCSR_ok ext icr.csr _ _ csr hparse hsig hip hemail hext
    (by rw [huris]; decide)]
  rfl

/-- Witness for C2: the end-to-end example evaluated on concrete data. -/
theorem authRequest_success_witness :
    authRequest ⟨[authOkFoo], none⟩ extOkFoo sampleCtx icrPlain =
      ("spiffe://cluster/ns/default/sa/foo", true) :=
  authRequest_success ⟨[authOkFoo], none⟩ extOkFoo sampleCtx icrPlain
    sampleCallerFoo sampleCSRFoo rfl rfl rfl rfl rfl rfl rfl rfl rfl

/-- C3: any request whose decoded CSR carries an IP or email SAN is never
authorized, whatever the rest of the request looks like. -/
theorem authRequest_forbidden_san (s : Server) (ext : Externals)
    (ctx : AuthContext) (icr : IstioCertificateRequest) (csr : ParsedCSR)
    (hparse : ext.parsePemEncodedCSR icr.csr = .ok csr)
    (hsan : csr.ipAddresses ≠ [] ∨ csr.emailAddresses ≠ []) :
    (authRequest s ext ctx icr).2 = false := by
  simp only [authRequest]
  split
  · rfl
  · split
    · rfl
    · split
      · split
        · rfl
        · split
          · rfl
          · exact validateCSR_forbidden_san ext icr.csr _ _ _ csr hparse hsan
      · exact validateCSR_forbidden_san ext icr.csr _ _ _ csr hparse hsan

/-- Witness for C3: a CSR with an IP SAN is rejected even though its URI
SAN matches the caller identity and everything else passes. -/
theorem authRequest_forbidden_san_witness :
    (authRequest ⟨[authOkFoo], none⟩ extWithIP sampleCtx icrPlain).2 = false :=
  authRequest_forbidden_san ⟨[authOkFoo], none⟩ extWithIP sampleCtx icrPlain
    sampleCSRWithIP rfl (Or.inl (by decide))

/-- C4: an impersonation request on a deployment without a node authorizer
is denied with an empty identity string, independently of the CSR bytes. -/
theorem authRequest_impersonation_not_configured (s : Server) (ext : Externals)
    (ctx : AuthContext) (icr : IstioCertificateRequest)
    (hna : s.nodeAuthorizer = none)
    (himp : getStringValue icr.metadata ImpersonatedIdentity ≠ "") :
    authRequest s ext ctx icr = ("", false) := by
  unfold authRequest
  rcases authChain s.authenticators ctx with e | caller
  · rfl
  · by_cases hlen : caller.identities.length = 0
    · simp only [if_pos hlen]
    · simp only [if_neg hlen, if_pos himp, hna]

/-- Witness for C4: a concrete impersonation request against a server with
no node authorizer. -/
theorem authRequest_impersonation_not_configured_witness :
    authRequest ⟨[authOkFoo], none⟩ extOkFoo sampleCtx icrImp = ("", false) :=
  authRequest_impersonation_not_configured ⟨[authOkFoo], none⟩ extOkFoo
    sampleCtx icrImp rfl (by decide)

/-- The authenticator loop succeeds with the first succeeding
authenticator's caller, whatever errors precede it, whatever follows it,
and whatever errors were already collected. -/
theorem authChainLoop_ok : ∀ (pre : List Authenticator) (a : Authenticator)
    (post : List Authenticator) (c : Caller) (ctx : AuthContext) (errs : List String),
    (∀ x ∈ pre, ∃ e, x ctx = .error e) → a ctx = .ok c →
    authChainLoop (pre ++ a :: post) ctx errs = .ok c
  | [], a, post, c, ctx, errs => by
    intro _ ha
    simp only [List.nil_append, authChainLoop, ha]
  | p :: ps, a, post, c, ctx, errs => by
    intro h ha
    obtain ⟨e, he⟩ := h p (List.mem_cons_self p ps)
    simp only [List.cons_append, authChainLoop, he]
    exact authChainLoop_ok ps a post c ctx (errs ++ [e])
      (fun x hx => h x (List.mem_cons_of_mem p hx)) ha

/-- When every authenticator fails, the loop collects every error, in
order, after those already accumulated. -/
theorem authChainLoop_allFail (auths : List Authenticator) (es : List String)
    (ctx : AuthContext)
    (h : List.Forall₂ (fun x e => x ctx = Except.error e) auths es) :
    ∀ errs : List String, authChainLoop auths ctx errs = .error (errs ++ es) := by
  induction h with
  | nil => intro errs; simp [authChainLoop]
  | cons hxe htl ih =>
    intro errs
    simp only [authChainLoop, hxe]
    rw [ih (errs ++ [_])]
    simp

/-- When the loop ends in an error, the collected errors extend the
accumulator and every authenticator failed with its error, in order. -/
theorem authChainLoop_error_forall : ∀ (auths : List Authenticator)
    (ctx : AuthContext) (errs es : List String),
    authChainLoop auths ctx errs = .error es →
    ∃ es', es = errs ++ es' ∧
      List.Forall₂ (fun x e => x ctx = Except.error e) auths es'
  | [], _, errs, es => by
    intro h
    simp only [authChainLoop, Except.error.injEq] at h
    exact ⟨[], by simp [← h], List.Forall₂.nil⟩
  | a :: rest, ctx, errs, es => by
    intro h
    simp only [authChainLoop] at h
    rcases ha : a ctx with e | c
    · simp only [ha] at h
      obtain ⟨es', rfl, hf⟩ := authChainLoop_error_forall rest ctx (errs ++ [e]) es h
      exact ⟨e :: es', by simp, List.Forall₂.cons ha hf⟩
    · simp only [ha] at h
      exact Except.noConfusion h

/-- C5: the authenticator chain tries the authenticators in list order;
the first success short-circuits it and yields that authenticator's
caller, discarding earlier errors and never consulting later
authenticators; the chain fails exactly when every authenticator fails,
carrying all the errors, in order, for the joined diagnostic. -/
theorem authChain_spec (ctx : AuthContext) :
    (∀ (pre : List Authenticator) (a : Authenticator) (post : List Authenticator)
      (c : Caller),
      (∀ x ∈ pre, ∃ e, x ctx = .error e) → a ctx = .ok c →
      authChain (pre ++ a :: post) ctx = .ok c) ∧
    (∀ (auths : List Authenticator) (es : List String),
      List.Forall₂ (fun x e => x ctx = Except.error e) auths es →
      authChain auths ctx = .error es) ∧
    (∀ (auths : List Authenticator) (es : List String),
      authChain auths ctx = .error es →
      List.Forall₂ (fun x e => x ctx = Except.error e) auths es) := by
  refine ⟨?_, ?_, ?_⟩
  · intro pre a post c h ha
    exact authChainLoop_ok pre a post c ctx [] h ha
  · intro auths es h
    simpa using authChainLoop_allFail auths es ctx h []
  · intro auths es h
    obtain ⟨es', rfl, hf⟩ := authChainLoop_error_forall auths ctx [] es h
    simpa using hf

/-- Witness for C5: with chain [fail, succeed, fail], the middle
authenticator's caller wins whatever the third one would do; with chain
[fail, fail], both errors are collected in order. -/
theorem authChain_spec_witness :
    authChain [authFail1, authOkFoo, authFail2] sampleCtx = .ok sampleCallerFoo ∧
    authChain [authFail1, authFail2] sampleCtx = .error ["bad token", "expired cert"] := by
  constructor
  · exact (authChain_spec sampleCtx).1 [authFail1] authOkFoo [authFail2] sampleCallerFoo
      (fun x hx => by
        have hx' : x = authFail1 := by simpa using hx
        subst hx'
        exact ⟨"bad token", rfl⟩) rfl
  · exact (authChain_spec sampleCtx).2.1 [authFail1, authFail2] ["bad token", "expired cert"]
      (List.Forall₂.cons rfl (List.Forall₂.cons rfl List.Forall₂.nil))

/-- C6: once authentication, the identity check and impersonation
resolution have succeeded, the resolved identity string — the impersonated
identity, or else the comma-joined caller identities — is returned with
every outcome of the CSR validation tail, failures included. -/
theorem authRequest_identity_attribution (s : Server) (ext : Externals)
    (ctx : AuthContext) (icr : IstioCertificateRequest) (caller : Caller)
    (imp : String)
    (hauth : authChain s.authenticators ctx = .ok caller)
    (hne : caller.identities ≠ [])
    (himp : imp = getStringValue icr.metadata ImpersonatedIdentity)
    (hres : imp = "" ∨ ∃ na, s.nodeAuthorizer = some na ∧
      na caller.kubernetesInfo imp = .ok ()) :
    (authRequest s ext ctx icr).1 =
      if imp = "" then String.intercalate "," caller.identities else imp := by
  have hlen : ¬caller.identities.length = 0 := by
    simpa [List.length_eq_zero] using hne
  simp only [authRequest, hauth]
  rw [if_neg hlen]
  subst himp
  by_cases h0 : getStringValue icr.metadata ImpersonatedIdentity = ""
  · rw [if_neg (by simp [h0]), validateCSR_fst, if_pos h0]
  · obtain ⟨na, hna, hok⟩ := hres.resolve_left h0
    rw [if_pos h0]
    simp only [hna, hok]
    rw [validateCSR_fst, if_neg h0]

/-- Witness for C6: a request whose CSR fails to decode still reports the
resolved caller identity. -/
theorem authRequest_identity_attribution_witness :
    (authRequest ⟨[authOkFoo], none⟩ extParseFail sampleCtx icrPlain).1 =
      "spiffe://cluster/ns/default/sa/foo" := by
  have h := authRequest_identity_attribution ⟨[authOkFoo], none⟩ extParseFail
    sampleCtx icrPlain sampleCallerFoo "" rfl (by decide) rfl (Or.inl rfl)
  rw [h]
  rfl

/-- When every authenticator fails, the loop ends in an error, whatever
errors were already collected. -/
theorem authChainLoop_exists_error : ∀ (auths : List Authenticator)
    (ctx : AuthContext) (errs : List String),
    (∀ a ∈ auths, ∃ e, a ctx = .error e) →
    ∃ es, authChainLoop auths ctx errs = .error es
  | [], _, errs, _ => ⟨errs, rfl⟩
  | a :: rest, ctx, errs, h => by
    obtain ⟨e, he⟩ := h a (List.mem_cons_self a rest)
    simp only [authChainLoop, he]
    exact authChainLoop_exists_error rest ctx (errs ++ [e])
      (fun x hx => h x (List.mem_cons_of_mem a hx))

/-- C7: when every configured authenticator fails, `authRequest` returns
exactly `("", false)`, independently of the node authorizer, the CSR bytes
and the externals. -/
theorem authRequest_all_fail (s : Server) (ext : Externals) (ctx : AuthContext)
    (icr : IstioCertificateRequest)
    (h : ∀ a ∈ s.authenticators, ∃ e, a ctx = .error e) :
    authRequest s ext ctx icr = ("", false) := by
  obtain ⟨es, hes⟩ := authChainLoop_exists_error s.authenticators ctx [] h
  simp only [authRequest, authChain, hes]

/-- Witness for C7: a single failing authenticator. -/
theorem authRequest_all_fail_witness :
    authRequest ⟨[authFail1], none⟩ extOkFoo sampleCtx icrPlain = ("", false) :=
  authRequest_all_fail ⟨[authFail1], none⟩ extOkFoo sampleCtx icrPlain
    (fun a ha => by
      have ha' : a = authFail1 := by simpa using ha
      subst ha'
      exact ⟨"bad token", rfl⟩)

/-- C8: when the configured node authorizer denies the impersonation, the
request is denied with an empty identity string: the Go `identities`
variable is only assigned after the node authorizer approves. -/
theorem authRequest_impersonation_denied (s : Server) (ext : Externals)
    (ctx : AuthContext) (icr : IstioCertificateRequest) (caller : Caller)
    (na : NodeAuthorizer) (e : String)
    (hauth : authChain s.authenticators ctx = .ok caller)
    (hne : caller.identities ≠ [])
    (himp : getStringValue icr.metadata ImpersonatedIdentity ≠ "")
    (hna : s.nodeAuthorizer = some na)
    (hdeny : na caller.kubernetesInfo
      (getStringValue icr.metadata ImpersonatedIdentity) = .error e) :
    authRequest s ext ctx icr = ("", false) := by
  have hlen : ¬caller.identities.length = 0 := by
    simpa [List.length_eq_zero] using hne
  simp only [authRequest, hauth]
  rw [if_neg hlen, if_pos himp]
  simp only [hna, hdeny]

/-- Witness for C8: a concrete denied impersonation. -/
theorem authRequest_impersonation_denied_witness :
    authRequest ⟨[authOkFoo], some naDeny⟩ extOkFoo sampleCtx icrImp = ("", false) :=
  authRequest_impersonation_denied ⟨[authOkFoo], some naDeny⟩ extOkFoo sampleCtx
    icrImp sampleCallerFoo naDeny "impersonation denied" rfl (by decide)
    (by decide) rfl rfl

/-- C9: replayed over the slice store, `identitiesMatch` sorts only the
freshly allocated copies: the caller's slices hold the same contents after
the call, and the boolean agrees with the pure function. -/
theorem identitiesMatchStore_frame (σ : SliceStore) (ia ib : Nat)
    (ha : ia < σ.strSlices.length) (hb : ib < σ.urlSlices.length) :
    ((identitiesMatchStore σ ia ib).2.strSlices.getD ia [] =
      σ.strSlices.getD ia []) ∧
    ((identitiesMatchStore σ ia ib).2.urlSlices.getD ib [] =
      σ.urlSlices.getD ib []) ∧
    (identitiesMatchStore σ ia ib).1 =
      identitiesMatch (σ.strSlices.getD ia []) (σ.urlSlices.getD ib []) := by
  by_cases h : (σ.strSlices.getD ia []).length ≠ (σ.urlSlices.getD ib []).length
  · simp only [identitiesMatchStore, identitiesMatch, if_pos h]
    exact ⟨trivial, trivial, trivial⟩
  · simp only [identitiesMatchStore, identitiesMatch, if_neg h]
    exact ⟨List.getD_append _ _ _ _ ha, List.getD_append _ _ _ _ hb, trivial⟩

/-- Witness for C9: the caller's slices are unchanged on the spec's
order-insensitive example, and the match succeeds. -/
theorem identitiesMatchStore_frame_witness :
    ((identitiesMatchStore ⟨[["b", "a"]], [[⟨"a"⟩, ⟨"b"⟩]]⟩ 0 0).2.strSlices.getD 0 [] =
      ["b", "a"]) ∧
    ((identitiesMatchStore ⟨[["b", "a"]], [[⟨"a"⟩, ⟨"b"⟩]]⟩ 0 0).2.urlSlices.getD 0 [] =
      [⟨"a"⟩, ⟨"b"⟩]) ∧
    (identitiesMatchStore ⟨[["b", "a"]], [[⟨"a"⟩, ⟨"b"⟩]]⟩ 0 0).1 = true := by
  have h := identitiesMatchStore_frame ⟨[["b", "a"]], [[⟨"a"⟩, ⟨"b"⟩]]⟩ 0 0
    (by decide) (by decide)
  exact ⟨h.1, h.2.1, by rw [h.2.2]; decide⟩

/-- C10: `identitiesMatch` on two empty lists returns true; the pipeline
is saved from that case only because a caller with no identities is
rejected before any CSR processing. -/
theorem identitiesMatch_empty_guard :
    identitiesMatch [] [] = true ∧
    ∀ (s : Server) (ext : Externals) (ctx : AuthContext)
      (icr : IstioCertificateRequest) (caller : Caller),
      authChain s.authenticators ctx = .ok caller →
      caller.identities = [] →
      authRequest s ext ctx icr = ("", false) := by
  refine ⟨rfl, ?_⟩
  intro s ext ctx icr caller hauth hid
  simp only [authRequest, hauth, hid]
  rfl

/-- Witness for C10: an authenticator that succeeds with no identities is
rejected. -/
theorem identitiesMatch_empty_guard_witness :
    authRequest ⟨[authOkEmpty], none⟩ extOkFoo sampleCtx icrPlain = ("", false) :=
  identitiesMatch_empty_guard.2 ⟨[authOkEmpty], none⟩ extOkFoo sampleCtx icrPlain
    sampleCallerEmpty rfl rfl

end IstioCSR
